import Mathlib

/-!
Shallow embedding of the inventory / loan core of a desktop library manager
(the book catalog, stock management, member counters, loan transactions, and
the admin "mark as returned" path), together with theorems checking the
specification's claims about that core.

Modelling conventions:
* Python `int` fields are `Int`.
* Calendar dates are day numbers (`Int`); instants (`datetime.now()`) are
  second counts (`Int`).  A date string produced by `strftime("%Y-%m-%d")`
  and re-parsed by `strptime` denotes midnight of its day, i.e. the instant
  `86400 * day`.
* The source mutates lists of dicts in place; the embedding threads the
  lists explicitly and returns the updated ones.
* Persistence (`save_data`), caching, the GUI message boxes and the observer
  notifications are side effects outside the modelled state; the functions
  below embed the state transitions and return values of the source methods.
* Book records carry the fields that the embedded operations read or write
  (`id`, `s.no_code`, `title`, `author`, `isbn`, `category`, `total_copies`,
  `available_copies`).  The remaining descriptive attributes (publisher,
  publication year, page count, price, shelf location, description, added
  date) are stored at creation and only ever copied verbatim, so they are
  not represented.
-/

namespace LibraryCore

/-- A catalog entry (`books` list element built by `BookManager.add_book`). -/
structure Book where
  id : Int
  sno_code : String
  title : String
  author : String
  isbn : String
  category : String
  total_copies : Int
  available_copies : Int
  deriving DecidableEq, Repr

/-- A member record (the fields read or written by `update_borrow_count`
and `get_member_by_id`). -/
structure Member where
  id : String
  name : String
  max_books : Int
  active : Bool
  total_borrowed : Int
  current_borrowed : Int
  deriving DecidableEq, Repr

/-- A loan transaction as built by `TransactionManager.issue_book`.
`issue_date` and `due_date` are day numbers; `return_date` is the empty
string until the loan is returned. -/
structure LoanTransaction where
  id : Int
  book_id : Int
  member_id : String
  issue_date : Int
  due_date : Int
  return_date : String
  status : String
  fine_amount : Int
  fine_paid : Bool
  renewals : Int
  deriving DecidableEq, Repr

/-- One stock-history entry as appended by `StockManagementSystem`. -/
structure StockRecord where
  history_id : Int
  book_id : Int
  book_title : String
  book_author : String
  book_isbn : String
  action : String
  quantity_added : Int
  old_stock : Int
  new_stock : Int
  old_total : Int
  new_total : Int
  source : String
  notes : String
  timestamp : String
  performed_by : String
  deriving DecidableEq, Repr

/-- One row of the `admin_saves` SQLite table (the columns read or written
by `mark_as_returned`). -/
structure AdminSave where
  student_name : String
  book_title : String
  status : String
  return_date : String
  deriving DecidableEq, Repr

/-- The shared in-memory data object: the lists every manager mutates. -/
structure LibraryData where
  books : List Book
  members : List Member
  transactions : List LoanTransaction
  deriving DecidableEq, Repr

/-! ### FastBookLookup

`build_index` fills `by_id` by iterating the book list and storing every
book under its id when the id is truthy (nonzero); a later book with the
same id overwrites an earlier one.  Hence `get_by_id` returns the *last*
book in the list whose (nonzero) id matches. -/

/-- `FastBookLookup.get_by_id` after `build_index books`: the last book in
`books` with the given nonzero id. -/
def get_by_id (books : List Book) (book_id : Int) : Option Book :=
  match books with
  | [] => none
  | b :: rest =>
    match get_by_id rest book_id with
    | some r => some r
    | none => if b.id = book_id ∧ b.id ≠ 0 then some b else none

/-! ### BookManager -/

/-- The caller-supplied fields of `BookManager.add_book`'s `book_data`
argument (the `s.no_code` key is optional, defaulting to `"T" ++ id`). -/
structure BookInput where
  sno_code : Option String
  title : String
  author : String
  isbn : String
  category : String
  total_copies : Int
  deriving DecidableEq, Repr

/-- `BookManager.add_book`: assigns id `len(books) + 1`, sets
`available_copies = total_copies`, appends, returns the id. -/
def add_book (bd : BookInput) (books : List Book) : Int × List Book :=
  let book_id : Int := books.length + 1
  let book : Book :=
    { id := book_id
      sno_code := bd.sno_code.getD ("T" ++ toString book_id)
      title := bd.title
      author := bd.author
      isbn := bd.isbn
      category := bd.category
      total_copies := bd.total_copies
      available_copies := bd.total_copies }
  (book_id, books ++ [book])

/-- The `updated_data` dict of `BookManager.update_book`: each present key
overwrites the corresponding book field (`if key in book: book[key] = value`). -/
structure UpdatedData where
  sno_code : Option String := none
  title : Option String := none
  author : Option String := none
  isbn : Option String := none
  category : Option String := none
  total_copies : Option Int := none
  available_copies : Option Int := none
  deriving DecidableEq, Repr

/-- The field-overwrite loop of `update_book` (source lines 1502-1504). -/
def applyUpdates (u : UpdatedData) (b : Book) : Book :=
  { b with
    sno_code := u.sno_code.getD b.sno_code
    title := u.title.getD b.title
    author := u.author.getD b.author
    isbn := u.isbn.getD b.isbn
    category := u.category.getD b.category
    total_copies := u.total_copies.getD b.total_copies
    available_copies := u.available_copies.getD b.available_copies }

/-- The copy-count adjustment block of `update_book` (source lines
1506-1520).  Note that the source re-reads `old_total` from
`self.data.books[i]` *after* the overwrite loop has already stored the new
total into that same dict, so `old_total` here is the already-updated
total, exactly as in the source. -/
def adjustCopies (u : UpdatedData) (b1 : Book) : Book :=
  match u.total_copies with
  | none => b1
  | some new_total =>
    let old_total := b1.total_copies
    if old_total < new_total then
      { b1 with available_copies := b1.available_copies + (new_total - old_total) }
    else if new_total < old_total then
      { b1 with
        available_copies := max 0 (b1.available_copies - (old_total - new_total))
        total_copies := new_total }
    else b1

/-- `BookManager.update_book`: finds the first book with the given id,
applies the field overwrites and the adjustment block, returns `true`;
returns `false` when no book matches. -/
def update_book (book_id : Int) (u : UpdatedData) (books : List Book) :
    Bool × List Book :=
  match books with
  | [] => (false, [])
  | b :: rest =>
    if b.id = book_id then
      (true, adjustCopies u (applyUpdates u b) :: rest)
    else
      let r := update_book book_id u rest
      (r.1, b :: r.2)

/-- `BookManager.delete_book`: first book with the given id is removed if
`available_copies ≥ total_copies`; otherwise the delete is refused and the
catalog is unchanged. -/
def delete_book (book_id : Int) (books : List Book) : Bool × List Book :=
  match books with
  | [] => (false, [])
  | b :: rest =>
    if b.id = book_id then
      if b.available_copies < b.total_copies then (false, b :: rest)
      else (true, rest)
    else
      let r := delete_book book_id rest
      (r.1, b :: r.2)

/-- The inner deletion step of `delete_selected_books`: delete the first
book whose id matches (`for i, b in enumerate(...): if b["id"] == ...:
del ...; break`). -/
def delete_first_by_id (book_id : Int) (books : List Book) : List Book :=
  match books with
  | [] => []
  | b :: rest =>
    if b.id = book_id then rest else b :: delete_first_by_id book_id rest

/-- The lookup loop of `delete_selected_books`: the books found for the
requested ids (ids that look up to nothing are dropped). -/
def found_books (book_ids : List Int) (books : List Book) : List Book :=
  book_ids.filterMap (fun bid => get_by_id books bid)

/-- The `books_with_issues` partition of `delete_selected_books`. -/
def blocked_books (book_ids : List Int) (books : List Book) : List Book :=
  (found_books book_ids books).filter (fun b => b.available_copies < b.total_copies)

/-- The `books_to_delete` partition of `delete_selected_books`. -/
def deletable_books (book_ids : List Int) (books : List Book) : List Book :=
  (found_books book_ids books).filter (fun b => ¬ b.available_copies < b.total_copies)

/-- `BookManager.delete_selected_books`: looks every id up (last-match
lookup), partitions the found books into blocked (copies on loan) and
deletable ones, refuses outright when everything found is blocked, and
otherwise deletes each deletable book by *first*-id match. -/
def delete_selected_books (book_ids : List Int) (books : List Book) :
    Bool × List Book :=
  if blocked_books book_ids books ≠ [] ∧ deletable_books book_ids books = [] then
    (false, books)
  else
    (deletable_books book_ids books ≠ [],
     (deletable_books book_ids books).foldl
       (fun bs bk => delete_first_by_id bk.id bs) books)

/-! ### StockManagementSystem -/

/-- Add `q` to both copy counters of a book (`book['available_copies'] += q;
book['total_copies'] += q`). -/
def bump (q : Int) (b : Book) : Book :=
  { b with
    available_copies := b.available_copies + q
    total_copies := b.total_copies + q }

/-- The history record appended by `restock_book` / the bulk-restock row
loop.  `hist_len` is `len(self.stock_history)` at append time. -/
def mkStockRecord (action : String) (b : Book) (q : Int)
    (hist_len : Nat) (source notes timestamp : String) : StockRecord :=
  { history_id := (hist_len : Int) + 1
    book_id := b.id
    book_title := b.title
    book_author := b.author
    book_isbn := b.isbn
    action := action
    quantity_added := q
    old_stock := b.available_copies
    new_stock := b.available_copies + q
    old_total := b.total_copies
    new_total := b.total_copies + q
    source := source
    notes := notes
    timestamp := timestamp
    performed_by := "admin" }

/-- `StockManagementSystem.restock_book`: finds the first book with the
given id, adds `quantity` to both counters, appends one history record,
and returns `(True, book)`; `(False, None)` when the id is unknown. -/
def restock_book (book_id quantity : Int) (source notes timestamp : String)
    (books : List Book) (history : List StockRecord) :
    (Bool × Option Book) × List Book × List StockRecord :=
  match books with
  | [] => ((false, none), [], history)
  | b :: rest =>
    if b.id = book_id then
      ((true, some (bump quantity b)),
       bump quantity b :: rest,
       history ++ [mkStockRecord "restock" b quantity history.length source notes timestamp])
    else
      let r := restock_book book_id quantity source notes timestamp rest history
      (r.1, b :: r.2.1, r.2.2)

/-- One parsed row of the bulk-restock input (`{isbn, quantity}` after the
`str(row['ISBN']).strip()` / `int(row['Quantity'])` conversions). -/
structure RestockRow where
  isbn : String
  quantity : Int
  deriving DecidableEq, Repr

/-- The per-row body of `bulk_restock_from_excel`: restock the *first* book
whose isbn matches, appending one `bulk_restock` history record, and return
its (updated) record; `none` when no book matches. -/
def restock_by_isbn (isbn : String) (q : Int) (timestamp : String)
    (books : List Book) (history : List StockRecord) :
    Option Book × List Book × List StockRecord :=
  match books with
  | [] => (none, [], history)
  | b :: rest =>
    if b.isbn = isbn then
      (some (bump q b),
       bump q b :: rest,
       history ++ [mkStockRecord "bulk_restock" b q history.length
          "Excel Import" "Bulk restock from Excel file" timestamp])
    else
      let r := restock_by_isbn isbn q timestamp rest history
      (r.1, b :: r.2.1, r.2.2)

/-- Result of a bulk restock: the updated catalog and history plus the
`restocked_books` (titles) and `skipped_books` (isbns) accumulators. -/
structure BulkResult where
  books : List Book
  history : List StockRecord
  restocked : List String
  skipped : List String
  deriving DecidableEq, Repr

/-- The row loop of `bulk_restock_from_excel`. -/
def bulk_restock_loop (timestamp : String) (rows : List RestockRow)
    (books : List Book) (history : List StockRecord)
    (restocked skipped : List String) : BulkResult :=
  match rows with
  | [] => ⟨books, history, restocked, skipped⟩
  | r :: rest =>
    match restock_by_isbn r.isbn r.quantity timestamp books history with
    | (some b', books', history') =>
      bulk_restock_loop timestamp rest books' history' (restocked ++ [b'.title]) skipped
    | (none, books', history') =>
      bulk_restock_loop timestamp rest books' history' restocked (skipped ++ [r.isbn])

/-- `StockManagementSystem.bulk_restock_from_excel` on an already-parsed
row list: runs the row loop from empty accumulators and returns `True`
(the embedded loop is total, so the whole batch never fails). -/
def bulk_restock (timestamp : String) (rows : List RestockRow)
    (books : List Book) (history : List StockRecord) : Bool × BulkResult :=
  (true, bulk_restock_loop timestamp rows books history [] [])

/-! ### MemberManager and TransactionManager -/

/-- `MemberManager.update_borrow_count`: first member with the given id
gets `current_borrowed += delta`, `total_borrowed += |delta|`, then
`current_borrowed` is clamped up to `0`. -/
def update_borrow_count (member_id : String) (delta : Int)
    (members : List Member) : Bool × List Member :=
  match members with
  | [] => (false, [])
  | m :: rest =>
    if m.id = member_id then
      let cb := m.current_borrowed + delta
      (true,
       { m with
         current_borrowed := if cb < 0 then 0 else cb
         total_borrowed := m.total_borrowed + |delta| } :: rest)
    else
      let r := update_borrow_count member_id delta rest
      (r.1, m :: r.2)

/-- `TransactionManager.loan_period` (days). -/
def loan_period : Int := 14

/-- `TransactionManager.daily_fine` (currency units per day). -/
def daily_fine : Int := 10

/-- Decrement a looked-up book in place: `issue_book` mutates the dict
returned by `get_by_id`, i.e. the *last* list entry with that nonzero id. -/
def dec_looked_up (books : List Book) (book_id : Int) : List Book :=
  match books with
  | [] => []
  | b :: rest =>
    match get_by_id rest book_id with
    | some _ => b :: dec_looked_up rest book_id
    | none =>
      if b.id = book_id ∧ b.id ≠ 0 then
        { b with available_copies := b.available_copies - 1 } :: rest
      else b :: dec_looked_up rest book_id

/-- `TransactionManager.issue_book` at instant-day `now`: fails with
"Book not available" when the book is unknown or has no available copy;
otherwise decrements the looked-up book, appends one `issued` transaction
with due date `now + loan_period`, and updates the member's counters. -/
def issue_book (book_id : Int) (member_id : String) (now : Int)
    (d : LibraryData) : (Bool × String) × LibraryData :=
  match get_by_id d.books book_id with
  | none => ((false, "Book not available"), d)
  | some book =>
    if book.available_copies ≤ 0 then ((false, "Book not available"), d)
    else
      let due := now + loan_period
      let t : LoanTransaction :=
        { id := (d.transactions.length : Int) + 1
          book_id := book_id
          member_id := member_id
          issue_date := now
          due_date := due
          return_date := ""
          status := "issued"
          fine_amount := 0
          fine_paid := false
          renewals := 0 }
      ((true, "Book issued successfully. Due date: " ++ toString due),
       { books := dec_looked_up d.books book_id
         members := (update_borrow_count member_id 1 d.members).2
         transactions := d.transactions ++ [t] })

/-- `TransactionManager.calculate_fine` with the due date already parsed
(`strptime("%Y-%m-%d")` yields midnight of day `due_day`, the instant
`86400 * due_day`) and the current instant `now` in seconds.  Python's
`timedelta.days` is flooring division of the elapsed seconds by 86400,
embedded as `Int.fdiv`. -/
def calculate_fine (due_day : Int) (now : Int) : Int :=
  if 86400 * due_day < now then
    ((now - 86400 * due_day).fdiv 86400) * daily_fine
  else 0

/-! ### The admin "mark as returned" path -/

/-- The SQL `UPDATE admin_saves SET status = 'returned', return_date = ?
WHERE student_name = ? AND book_title = ? AND status = 'issued'`. -/
def update_saves (student book_title today : String)
    (saves : List AdminSave) : List AdminSave :=
  saves.map fun s =>
    if s.student_name = student ∧ s.book_title = book_title ∧ s.status = "issued"
    then { s with status := "returned", return_date := today }
    else s

/-- The book-stock update of `mark_as_returned`: the *first* book whose
title matches gets `available_copies += 1`, unconditionally (no check
against `total_copies`, and independent of whether the SQL update matched
any row). -/
def inc_first_by_title (book_title : String) (books : List Book) : List Book :=
  match books with
  | [] => []
  | b :: rest =>
    if b.title = book_title then
      { b with available_copies := b.available_copies + 1 } :: rest
    else b :: inc_first_by_title book_title rest

/-- The committed path of the admin-console `mark_as_returned` handler:
mark the matching issued `admin_saves` rows returned, then bump the first
title-matching book's available count. -/
def mark_as_returned (student book_title today : String)
    (saves : List AdminSave) (books : List Book) :
    List AdminSave × List Book :=
  (update_saves student book_title today saves,
   inc_first_by_title book_title books)

/-! ### Derived observations used by the theorems -/

/-- Total number of available copies across the catalog. -/
def sumAvail (books : List Book) : Int :=
  (books.map Book.available_copies).sum

/-- Index of the first occurrence of `x` in a list of strings (the
position the first-match isbn loop of the bulk restock stops at). -/
def firstIdx (x : String) : List String → Option Nat
  | [] => none
  | y :: l => if y = x then some 0 else (firstIdx x l).map (· + 1)

/-- The total quantity the bulk-restock rows direct at catalog position
`j`: the sum of the quantities of the rows whose isbn first matches the
catalog at index `j` (isbns never change during a bulk restock, so the
match positions can be read off the initial isbn column). -/
def rowSum (rows : List RestockRow) (isbns : List String) (j : Nat) : Int :=
  ((rows.filter (fun r => firstIdx r.isbn isbns = some j)).map RestockRow.quantity).sum

/-! ## Helper lemmas -/

/-- `adjustCopies` is the identity whenever the update carries a
`total_copies` value that already equals the book's (post-overwrite)
total — which is always the case after `applyUpdates`. -/
theorem adjustCopies_of_total_eq (u : UpdatedData) (b1 : Book) (t : Int)
    (h : u.total_copies = some t) (h2 : b1.total_copies = t) :
    adjustCopies u b1 = b1 := by
  simp [adjustCopies, h, h2]

/-- After the overwrite loop, the book's total is the updated value. -/
theorem applyUpdates_total (u : UpdatedData) (b : Book) (t : Int)
    (h : u.total_copies = some t) : (applyUpdates u b).total_copies = t := by
  simp [applyUpdates, h]

/-- After the overwrite loop, an update without an `available_copies` key
leaves the available count unchanged. -/
theorem applyUpdates_available (u : UpdatedData) (b : Book)
    (h : u.available_copies = none) :
    (applyUpdates u b).available_copies = b.available_copies := by
  simp [applyUpdates, h]

/-- `update_book` acts on the first id match. -/
theorem update_book_first_match (bid : Int) (u : UpdatedData)
    (pre post : List Book) (b : Book)
    (hpre : ∀ x ∈ pre, x.id ≠ bid) (hb : b.id = bid) :
    update_book bid u (pre ++ b :: post) =
      (true, pre ++ adjustCopies u (applyUpdates u b) :: post) := by
  induction pre with
  | nil => simp [update_book, hb]
  | cons p pre ih =>
    have hp : p.id ≠ bid := hpre p (by simp)
    have ih' := ih (fun x hx => hpre x (by simp [hx]))
    simp [update_book, hp, ih']

/-! ## Claims -/

/-- Claim C1 (code evaluation at the failing input): invariant I1 does not
survive every mutation.  From the single-book catalog at
`(available = 5, total = 5)` — which satisfies I1 — `update_book` with
`total_copies := 3` reports success and leaves the record at
`(available = 5, total = 3)`, i.e. `available_copies > total_copies`.
(The adjustment branch of the source is dead because `old_total` is
re-read after the overwrite already stored the new total.) -/
theorem update_book_breaks_invariant_I1 :
    update_book 1 { total_copies := some 3 }
        [{ id := 1, sno_code := "T1", title := "t", author := "a", isbn := "i",
           category := "c", total_copies := 5, available_copies := 5 }] =
      (true,
       [{ id := 1, sno_code := "T1", title := "t", author := "a", isbn := "i",
          category := "c", total_copies := 3, available_copies := 5 }]) ∧
    ¬ ((5 : Int) ≤ 3) := by
  refine ⟨?_, by decide⟩
  decide

/-- Claim C2 (code evaluation at the failing input): a second
`mark_as_returned` on the same already-returned loan does not fail — it
increments the book's available count again.  Starting from the state the
admin issue path creates (book at `(available = 0, total = 1)`, one
`issued` `admin_saves` row), the first call yields `(1, 1)` and marks the
row `returned`; the second call leaves the rows unchanged but still bumps
the book to `(available = 2, total = 1)`, exceeding the total. -/
theorem mark_as_returned_double_increments :
    let books : List Book :=
      [{ id := 1, sno_code := "T1", title := "t", author := "a", isbn := "i",
         category := "General", total_copies := 1, available_copies := 0 }]
    let saves : List AdminSave :=
      [{ student_name := "s", book_title := "t", status := "issued", return_date := "" }]
    let r1 := mark_as_returned "s" "t" "2026-01-01" saves books
    let r2 := mark_as_returned "s" "t" "2026-01-02" r1.1 r1.2
    (r1.2.map Book.available_copies = [1] ∧
     r2.1 = r1.1 ∧
     r2.2.map Book.available_copies = [2] ∧
     r2.2.map Book.total_copies = [1] ∧
     ¬ ((2 : Int) ≤ 1)) := by
  decide

/-- Claim C5 (code evaluation at the failing input): an increase of
`total_copies` does *not* flow to `available_copies`.  Updating a book at
`(available = 1, total = 5)` with `total_copies := 10` leaves
`available_copies = 1`, not `1 + (10 - 5) = 6`: the adjustment block of
`update_book` re-reads `old_total` from the record *after* the overwrite
loop already stored the new total, so the delta it computes is always 0
and neither adjustment branch ever runs (contradicting the source's own
comments on those branches). -/
theorem update_book_ignores_total_delta :
    update_book 1 { total_copies := some 10 }
        [{ id := 1, sno_code := "T1", title := "t", author := "a", isbn := "i",
           category := "c", total_copies := 5, available_copies := 1 }] =
      (true,
       [{ id := 1, sno_code := "T1", title := "t", author := "a", isbn := "i",
          category := "c", total_copies := 10, available_copies := 1 }]) ∧
    (1 : Int) ≠ 1 + (10 - 5) := by
  refine ⟨?_, by decide⟩
  decide

/-- Claim C4 (counterexample): `updateBook` with `total_copies = 2` on a
book at `(available = 1, total = 5)` (4 copies on loan) is *not* rejected:
`update_book` reports success and stores the new total, mutating the copy
counts. -/
theorem update_book_decrease_not_rejected :
    update_book 1 { total_copies := some 2 }
        [{ id := 1, sno_code := "T1", title := "t", author := "a", isbn := "i",
           category := "c", total_copies := 5, available_copies := 1 }] =
      (true,
       [{ id := 1, sno_code := "T1", title := "t", author := "a", isbn := "i",
          category := "c", total_copies := 2, available_copies := 1 }]) ∧
    (2 : Int) ≠ 5 := by
  refine ⟨?_, by decide⟩
  decide

/-- Claim C4 (amended): an `update_book` call that decreases `total_copies`
below the currently-issued count is *accepted*: it returns `true`, stores
the new total on the first id-matching book, and leaves that book's
`available_copies` unchanged (no clamping adjustment runs).  In particular
`update_book` with `total_copies = 2` on a book at
`(available = 1, total = 5)` succeeds and yields `(available = 1, total = 2)`. -/
theorem update_book_decrease_applied_silently (bid t : Int) (u : UpdatedData)
    (pre post : List Book) (b : Book)
    (hpre : ∀ x ∈ pre, x.id ≠ bid) (hb : b.id = bid)
    (ht : u.total_copies = some t) (hav : u.available_copies = none)
    (hlt : t < b.total_copies - b.available_copies) :
    update_book bid u (pre ++ b :: post) =
      (true, pre ++ applyUpdates u b :: post) ∧
    (applyUpdates u b).total_copies = t ∧
    (applyUpdates u b).available_copies = b.available_copies := by
  refine ⟨?_, applyUpdates_total u b t ht, applyUpdates_available u b hav⟩
  rw [update_book_first_match bid u pre post b hpre hb,
    adjustCopies_of_total_eq u _ t ht (applyUpdates_total u b t ht)]

/-- Witness for the amended C4 theorem at the spec's concrete scenario. -/
theorem update_book_decrease_applied_silently_witness :
    update_book 1 { total_copies := some 2 }
        ([] ++ ({ id := 1, sno_code := "T1", title := "t", author := "a", isbn := "i",
                  category := "c", total_copies := 5, available_copies := 1 } : Book) :: []) =
      (true,
       [] ++ applyUpdates { total_copies := some 2 }
          { id := 1, sno_code := "T1", title := "t", author := "a", isbn := "i",
            category := "c", total_copies := 5, available_copies := 1 } :: []) ∧
    (applyUpdates { total_copies := some 2 }
        { id := 1, sno_code := "T1", title := "t", author := "a", isbn := "i",
          category := "c", total_copies := 5, available_copies := 1 }).total_copies = 2 ∧
    (applyUpdates { total_copies := some 2 }
        { id := 1, sno_code := "T1", title := "t", author := "a", isbn := "i",
          category := "c", total_copies := 5, available_copies := 1 }).available_copies = 1 :=
  update_book_decrease_applied_silently 1 2 { total_copies := some 2 } [] []
    { id := 1, sno_code := "T1", title := "t", author := "a", isbn := "i",
      category := "c", total_copies := 5, available_copies := 1 }
    (by simp) rfl rfl rfl (by decide)

/-- Any element of a `delete_first_by_id` result was in the input. -/
theorem mem_of_mem_delete_first {b : Book} {bid : Int} {bs : List Book}
    (h : b ∈ delete_first_by_id bid bs) : b ∈ bs := by
  induction bs with
  | nil => simpa [delete_first_by_id] using h
  | cons x rest ih =>
    by_cases hx : x.id = bid
    · simp only [delete_first_by_id, if_pos hx] at h
      exact List.mem_cons_of_mem _ h
    · simp only [delete_first_by_id, if_neg hx, List.mem_cons] at h
      rcases h with rfl | h
      · exact List.mem_cons_self _ _
      · exact List.mem_cons_of_mem _ (ih h)

/-- An element that `delete_first_by_id` removed carries the deleted id. -/
theorem id_eq_of_not_mem_delete_first {b : Book} {bid : Int} {bs : List Book}
    (hmem : b ∈ bs) (hnot : b ∉ delete_first_by_id bid bs) : b.id = bid := by
  induction bs with
  | nil => cases hmem
  | cons x rest ih =>
    by_cases hx : x.id = bid
    · simp only [delete_first_by_id, if_pos hx] at hnot
      rcases List.mem_cons.mp hmem with rfl | hm
      · exact hx
      · exact absurd hm hnot
    · simp only [delete_first_by_id, if_neg hx, List.mem_cons, not_or] at hnot
      rcases List.mem_cons.mp hmem with rfl | hm
      · exact absurd rfl hnot.1
      · exact ih hm hnot.2

/-- An element removed by the deletion fold of `delete_selected_books`
shares its id with one of the books scheduled for deletion. -/
theorem exists_id_of_not_mem_foldl_delete (L : List Book) :
    ∀ (bs : List Book) (b : Book), b ∈ bs →
      b ∉ L.foldl (fun s k => delete_first_by_id k.id s) bs →
      ∃ bk ∈ L, b.id = bk.id := by
  induction L with
  | nil => intro bs b hb hnot; exact absurd hb hnot
  | cons k L ih =>
    intro bs b hb hnot
    simp only [List.foldl_cons] at hnot
    by_cases hmem : b ∈ delete_first_by_id k.id bs
    · obtain ⟨bk, hbk, hid⟩ := ih _ b hmem hnot
      exact ⟨bk, List.mem_cons_of_mem _ hbk, hid⟩
    · exact ⟨k, List.mem_cons_self _ _, id_eq_of_not_mem_delete_first hb hmem⟩

/-- A successful `get_by_id` returns an element of the list. -/
theorem get_by_id_mem {books : List Book} {bid : Int} {b : Book}
    (h : get_by_id books bid = some b) : b ∈ books := by
  induction books with
  | nil => simp [get_by_id] at h
  | cons x rest ih =>
    simp only [get_by_id] at h
    cases hr : get_by_id rest bid with
    | some r =>
      rw [hr] at h
      cases h
      exact List.mem_cons_of_mem _ (ih hr)
    | none =>
      rw [hr] at h
      by_cases hc : x.id = bid ∧ x.id ≠ 0
      · rw [if_pos hc] at h
        cases h
        exact List.mem_cons_self _ _
      · rw [if_neg hc] at h
        cases h

/-- In a catalog with pairwise distinct ids, equal ids mean equal books. -/
theorem eq_of_pairwise_id {books : List Book}
    (hp : books.Pairwise (fun x y => x.id ≠ y.id)) :
    ∀ a ∈ books, ∀ b ∈ books, a.id = b.id → a = b := by
  induction books with
  | nil => simp
  | cons x rest ih =>
    rw [List.pairwise_cons] at hp
    intro a ha b hb heq
    rcases List.mem_cons.mp ha with ha1 | ha2 <;>
      rcases List.mem_cons.mp hb with hb1 | hb2
    · rw [ha1, hb1]
    · subst ha1; exact absurd heq (hp.1 b hb2)
    · subst hb1; exact absurd heq.symm (hp.1 a ha2)
    · exact ih hp.2 a ha2 b hb2 heq

/-- A book removed by single-book `delete_book` had no copies on loan. -/
theorem delete_book_removes_only_deletable {bid : Int} {books : List Book}
    {b : Book} (hb : b ∈ books) (hnot : b ∉ (delete_book bid books).2) :
    ¬ b.available_copies < b.total_copies := by
  induction books with
  | nil => cases hb
  | cons x rest ih =>
    by_cases hx : x.id = bid
    · by_cases hbl : x.available_copies < x.total_copies
      · simp only [delete_book, if_pos hx, if_pos hbl] at hnot
        exact absurd hb hnot
      · simp only [delete_book, if_pos hx, if_neg hbl] at hnot
        rcases List.mem_cons.mp hb with rfl | hm
        · exact hbl
        · exact absurd hm hnot
    · simp only [delete_book, if_neg hx, List.mem_cons, not_or] at hnot
      rcases List.mem_cons.mp hb with rfl | hm
      · exact absurd rfl hnot.1
      · exact ih hm hnot.2

/-- `delete_book` acts on the first id match: blocked case. -/
theorem delete_book_blocked {bid : Int} (pre post : List Book) (b : Book)
    (hpre : ∀ x ∈ pre, x.id ≠ bid) (hb : b.id = bid)
    (hbl : b.available_copies < b.total_copies) :
    delete_book bid (pre ++ b :: post) = (false, pre ++ b :: post) := by
  induction pre with
  | nil => simp [delete_book, hb, hbl]
  | cons p pre ih =>
    have hp : p.id ≠ bid := hpre p (by simp)
    have ih' := ih (fun x hx => hpre x (by simp [hx]))
    simp [delete_book, hp, ih']

/-- `delete_book` acts on the first id match: deletable case. -/
theorem delete_book_deletes {bid : Int} (pre post : List Book) (b : Book)
    (hpre : ∀ x ∈ pre, x.id ≠ bid) (hb : b.id = bid)
    (hbl : ¬ b.available_copies < b.total_copies) :
    delete_book bid (pre ++ b :: post) = (true, pre ++ post) := by
  induction pre with
  | nil => simp [delete_book, hb, hbl]
  | cons p pre ih =>
    have hp : p.id ≠ bid := hpre p (by simp)
    have ih' := ih (fun x hx => hpre x (by simp [hx]))
    simp [delete_book, hp, ih']

/-- With pairwise distinct ids, bulk delete removes only deletable books. -/
theorem bulk_delete_removes_only_deletable {ids : List Int} {books : List Book}
    (hp : books.Pairwise (fun x y => x.id ≠ y.id)) :
    ∀ b ∈ books, b ∉ (delete_selected_books ids books).2 →
      ¬ b.available_copies < b.total_copies := by
  intro b hb hnot
  by_cases hc : blocked_books ids books ≠ [] ∧ deletable_books ids books = []
  · rw [delete_selected_books, if_pos hc] at hnot
    exact absurd hb hnot
  · rw [delete_selected_books, if_neg hc] at hnot
    obtain ⟨bk, hbk, hid⟩ := exists_id_of_not_mem_foldl_delete _ _ b hb hnot
    have hbk' := hbk
    rw [deletable_books, List.mem_filter] at hbk'
    obtain ⟨hbkF, hbkOk⟩ := hbk'
    rw [found_books, List.mem_filterMap] at hbkF
    obtain ⟨bid, _, hget⟩ := hbkF
    have hbkMem : bk ∈ books := get_by_id_mem hget
    have : b = bk := eq_of_pairwise_id hp b hb bk hbkMem hid
    subst this
    simpa using hbkOk

/-- Claim C6 (counterexample): in a catalog that the normal add / issue /
delete / add flow can produce — where two records share id 3 because
`add_book` assigns `len(books) + 1` — `delete_selected_books [3]` looks id
3 up to the *last* matching record (all copies in), decides it is
deletable, but then deletes the *first* record with id 3, which has two
copies on loan.  A book with `available_copies < total_copies` is removed. -/
theorem bulk_delete_removes_issued_book :
    let bd1 : BookInput := ⟨none, "Alpha", "A", "111", "c", 3⟩
    let bd2 : BookInput := ⟨none, "Beta", "B", "222", "c", 3⟩
    let bd3 : BookInput := ⟨none, "Gamma", "C", "333", "c", 3⟩
    let bd4 : BookInput := ⟨none, "Delta", "D", "444", "c", 3⟩
    let books0 := (add_book bd3 (add_book bd2 (add_book bd1 []).2).2).2
    let d0 : LibraryData := { books := books0, members := [], transactions := [] }
    let d1 := (issue_book 3 "M0001" 0 d0).2
    let d2 := (issue_book 3 "M0001" 0 d1).2
    let books1 := (delete_book 1 d2.books).2
    let books2 := (add_book bd4 books1).2
    let victim : Book :=
      { id := 3, sno_code := "T3", title := "Gamma", author := "C", isbn := "333",
        category := "c", total_copies := 3, available_copies := 1 }
    (victim ∈ books2 ∧
     victim.available_copies < victim.total_copies ∧
     (delete_selected_books [3] books2).1 = true ∧
     victim ∉ (delete_selected_books [3] books2).2) := by
  decide

/-- Claim C6 (amended): single-book `delete_book` never removes a book
with copies on loan — on the first id match it fails and leaves the
catalog unchanged when `available_copies < total_copies` and removes the
record otherwise — and, provided the catalog's ids are pairwise distinct,
bulk `delete_selected_books` also never removes a book with copies on
loan.  In particular delete at `(available = 3, total = 3)` succeeds and
delete at `(available = 1, total = 3)` fails. -/
theorem delete_never_removes_issued_books :
    (∀ (bid : Int) (books : List Book) (b : Book),
        b ∈ books → b ∉ (delete_book bid books).2 →
        ¬ b.available_copies < b.total_copies) ∧
    (∀ (bid : Int) (pre post : List Book) (b : Book),
        (∀ x ∈ pre, x.id ≠ bid) → b.id = bid →
        b.available_copies < b.total_copies →
        delete_book bid (pre ++ b :: post) = (false, pre ++ b :: post)) ∧
    (∀ (bid : Int) (pre post : List Book) (b : Book),
        (∀ x ∈ pre, x.id ≠ bid) → b.id = bid →
        ¬ b.available_copies < b.total_copies →
        delete_book bid (pre ++ b :: post) = (true, pre ++ post)) ∧
    (∀ (ids : List Int) (books : List Book),
        books.Pairwise (fun x y => x.id ≠ y.id) →
        ∀ b ∈ books, b ∉ (delete_selected_books ids books).2 →
        ¬ b.available_copies < b.total_copies) ∧
    (delete_book 1
        [{ id := 1, sno_code := "T1", title := "t", author := "a", isbn := "i",
           category := "c", total_copies := 3, available_copies := 3 }] = (true, []) ∧
     delete_book 1
        [{ id := 1, sno_code := "T1", title := "t", author := "a", isbn := "i",
           category := "c", total_copies := 3, available_copies := 1 }] =
       (false,
        [{ id := 1, sno_code := "T1", title := "t", author := "a", isbn := "i",
           category := "c", total_copies := 3, available_copies := 1 }])) :=
  ⟨fun _ _ _ hb hnot => delete_book_removes_only_deletable hb hnot,
   fun bid pre post b hpre hb hbl => delete_book_blocked pre post b hpre hb hbl,
   fun bid pre post b hpre hb hbl => delete_book_deletes pre post b hpre hb hbl,
   fun _ _ hp b hb hnot => bulk_delete_removes_only_deletable hp b hb hnot,
   by decide, by decide⟩

/-- Witness for the amended C6 theorem: its quantified conjuncts applied
at the spec's concrete scenario books. -/
theorem delete_never_removes_issued_books_witness :
    (¬ ({ id := 1, sno_code := "T1", title := "t", author := "a", isbn := "i",
          category := "c", total_copies := 3,
          available_copies := 3 } : Book).available_copies <
        ({ id := 1, sno_code := "T1", title := "t", author := "a", isbn := "i",
           category := "c", total_copies := 3,
           available_copies := 3 } : Book).total_copies) ∧
    delete_book 1
        ([] ++ ({ id := 1, sno_code := "T1", title := "t", author := "a", isbn := "i",
                  category := "c", total_copies := 3,
                  available_copies := 1 } : Book) :: []) =
      (false,
       [] ++ ({ id := 1, sno_code := "T1", title := "t", author := "a", isbn := "i",
                category := "c", total_copies := 3,
                available_copies := 1 } : Book) :: []) ∧
    delete_book 2
        ([] ++ ({ id := 2, sno_code := "T2", title := "u", author := "a", isbn := "j",
                  category := "c", total_copies := 3,
                  available_copies := 3 } : Book) :: []) =
      (true, ([] : List Book) ++ []) ∧
    (¬ ({ id := 2, sno_code := "T2", title := "u", author := "a", isbn := "j",
          category := "c", total_copies := 3,
          available_copies := 3 } : Book).available_copies <
        ({ id := 2, sno_code := "T2", title := "u", author := "a", isbn := "j",
           category := "c", total_copies := 3,
           available_copies := 3 } : Book).total_copies) :=
  ⟨delete_never_removes_issued_books.1 1
     [{ id := 1, sno_code := "T1", title := "t", author := "a", isbn := "i",
        category := "c", total_copies := 3, available_copies := 3 }]
     { id := 1, sno_code := "T1", title := "t", author := "a", isbn := "i",
       category := "c", total_copies := 3, available_copies := 3 }
     (by decide) (by decide),
   delete_never_removes_issued_books.2.1 1 [] []
     { id := 1, sno_code := "T1", title := "t", author := "a", isbn := "i",
       category := "c", total_copies := 3, available_copies := 1 }
     (by simp) rfl (by decide),
   delete_never_removes_issued_books.2.2.1 2 [] []
     { id := 2, sno_code := "T2", title := "u", author := "a", isbn := "j",
       category := "c", total_copies := 3, available_copies := 3 }
     (by simp) rfl (by decide),
   delete_never_removes_issued_books.2.2.2.1 [2]
     [{ id := 2, sno_code := "T2", title := "u", author := "a", isbn := "j",
        category := "c", total_copies := 3, available_copies := 3 }]
     (by simp)
     { id := 2, sno_code := "T2", title := "u", author := "a", isbn := "j",
       category := "c", total_copies := 3, available_copies := 3 }
     (by decide) (by decide)⟩

/-- `restock_book` acts on the first id match. -/
theorem restock_book_first_match (bid q : Int) (src notes ts : String)
    (pre post : List Book) (b : Book) (history : List StockRecord)
    (hpre : ∀ x ∈ pre, x.id ≠ bid) (hb : b.id = bid) :
    restock_book bid q src notes ts (pre ++ b :: post) history =
      ((true, some (bump q b)), pre ++ bump q b :: post,
       history ++ [mkStockRecord "restock" b q history.length src notes ts]) := by
  induction pre with
  | nil => simp [restock_book, hb]
  | cons p pre ih =>
    have hp : p.id ≠ bid := hpre p (by simp)
    have ih' := ih (fun x hx => hpre x (by simp [hx]))
    simp [restock_book, hp, ih']

/-- Claim C7: for every existing book (first id match) and quantity `q > 0`,
`restock_book` adds `q` to both `available_copies` and `total_copies` of
exactly that book — leaving the outstanding-loan count `total - available`
unchanged — reports success with the updated record, and appends exactly
one stock-history record capturing the old and new available and total
counts and the quantity added.  In particular, restocking 3 on a book at
`(available = 0, total = 5)` yields `(available = 3, total = 8)` with one
history record carrying `quantity_added = 3`. -/
theorem restock_book_spec :
    (∀ (bid q : Int) (src notes ts : String) (pre post : List Book) (b : Book)
        (history : List StockRecord),
        0 < q → (∀ x ∈ pre, x.id ≠ bid) → b.id = bid →
        restock_book bid q src notes ts (pre ++ b :: post) history =
          ((true, some (bump q b)), pre ++ bump q b :: post,
           history ++ [mkStockRecord "restock" b q history.length src notes ts]) ∧
        (bump q b).available_copies = b.available_copies + q ∧
        (bump q b).total_copies = b.total_copies + q ∧
        (bump q b).total_copies - (bump q b).available_copies
          = b.total_copies - b.available_copies ∧
        (mkStockRecord "restock" b q history.length src notes ts).quantity_added = q ∧
        (mkStockRecord "restock" b q history.length src notes ts).old_stock
          = b.available_copies ∧
        (mkStockRecord "restock" b q history.length src notes ts).new_stock
          = b.available_copies + q ∧
        (mkStockRecord "restock" b q history.length src notes ts).old_total
          = b.total_copies ∧
        (mkStockRecord "restock" b q history.length src notes ts).new_total
          = b.total_copies + q) ∧
    ((restock_book 1 3 "Purchase" "" "ts"
        [{ id := 1, sno_code := "T1", title := "t", author := "a", isbn := "i",
           category := "c", total_copies := 5, available_copies := 0 }]
        []).2.1.map (fun b => (b.available_copies, b.total_copies)) = [(3, 8)] ∧
     (restock_book 1 3 "Purchase" "" "ts"
        [{ id := 1, sno_code := "T1", title := "t", author := "a", isbn := "i",
           category := "c", total_copies := 5, available_copies := 0 }]
        []).2.2.map StockRecord.quantity_added = [3]) :=
  ⟨fun bid q src notes ts pre post b history _ hpre hb =>
    ⟨restock_book_first_match bid q src notes ts pre post b history hpre hb,
     rfl, rfl, by simp [bump], rfl, rfl, rfl, rfl, rfl⟩,
   by decide, by decide⟩

/-- Witness for claim C7's quantified part at the spec's scenario input. -/
theorem restock_book_spec_witness :
    restock_book 1 3 "Purchase" "" "ts"
        ([] ++ ({ id := 1, sno_code := "T1", title := "t", author := "a", isbn := "i",
                  category := "c", total_copies := 5,
                  available_copies := 0 } : Book) :: []) [] =
      ((true, some (bump 3
          { id := 1, sno_code := "T1", title := "t", author := "a", isbn := "i",
            category := "c", total_copies := 5, available_copies := 0 })),
       [] ++ bump 3
          { id := 1, sno_code := "T1", title := "t", author := "a", isbn := "i",
            category := "c", total_copies := 5, available_copies := 0 } :: [],
       [] ++ [mkStockRecord "restock"
          { id := 1, sno_code := "T1", title := "t", author := "a", isbn := "i",
            category := "c", total_copies := 5, available_copies := 0 }
          3 0 "Purchase" "" "ts"]) :=
  (restock_book_spec.1 1 3 "Purchase" "" "ts" [] []
    { id := 1, sno_code := "T1", title := "t", author := "a", isbn := "i",
      category := "c", total_copies := 5, available_copies := 0 }
    [] (by decide) (by simp) rfl).1

/-- On the overdue branch the flooring day count is the calendar-date
difference: for a midnight-aligned due instant, `timedelta.days` equals
`(calendar day of now) - due_day`. -/
theorem fdiv_days_eq_date_diff (d now : Int) :
    (now - 86400 * d).fdiv 86400 = now.fdiv 86400 - d := by
  rw [Int.fdiv_eq_ediv _ (by norm_num : (0 : Int) ≤ 86400),
    Int.fdiv_eq_ediv _ (by norm_num : (0 : Int) ≤ 86400)]
  have hrw : now - 86400 * d = now + (-d) * 86400 := by ring
  rw [hrw, Int.add_mul_ediv_right _ _ (by norm_num : (86400 : Int) ≠ 0)]
  ring

/-- Claim C9: `calculate_fine` is monotone in the as-of instant (for a
fixed due date, with both instants on or after the due date), returns 0
for every instant up to the due date, and on the overdue branch equals the
whole-day calendar-date difference times the daily fine rate — so the fine
is 0 anywhere on the due date itself, regardless of time of day. -/
theorem calculate_fine_spec :
    (∀ d t1 t2 : Int, 86400 * d ≤ t1 → t1 ≤ t2 →
        calculate_fine d t1 ≤ calculate_fine d t2) ∧
    (∀ d t : Int, t ≤ 86400 * d → calculate_fine d t = 0) ∧
    (∀ d now : Int, 86400 * d < now →
        calculate_fine d now = (now.fdiv 86400 - d) * daily_fine) := by
  refine ⟨?_, ?_, ?_⟩
  · intro d t1 t2 _ h12
    by_cases hlt1 : 86400 * d < t1
    · have hlt2 : 86400 * d < t2 := lt_of_lt_of_le hlt1 h12
      rw [calculate_fine, if_pos hlt1, calculate_fine, if_pos hlt2]
      refine mul_le_mul_of_nonneg_right ?_ (by norm_num [daily_fine])
      rw [Int.fdiv_eq_ediv _ (by norm_num : (0 : Int) ≤ 86400),
        Int.fdiv_eq_ediv _ (by norm_num : (0 : Int) ≤ 86400)]
      exact Int.ediv_le_ediv (by norm_num) (sub_le_sub_right h12 _)
    · rw [calculate_fine, if_neg hlt1]
      by_cases hlt2 : 86400 * d < t2
      · rw [calculate_fine, if_pos hlt2]
        refine mul_nonneg ?_ (by norm_num [daily_fine])
        rw [Int.fdiv_eq_ediv _ (by norm_num : (0 : Int) ≤ 86400)]
        exact Int.ediv_nonneg (by omega) (by norm_num)
      · rw [calculate_fine, if_neg hlt2]
  · intro d t h
    rw [calculate_fine, if_neg (not_lt.mpr h)]
  · intro d now h
    rw [calculate_fine, if_pos h, fdiv_days_eq_date_diff d now]

/-- Witness for claim C9 at concrete instants: due day 1; monotone from
the due-date midnight to two days later, 0 before the due date, and an
instant one day plus one hour past the due midnight carries one whole
day of fine. -/
theorem calculate_fine_spec_witness :
    calculate_fine 1 (86400 * 1) ≤ calculate_fine 1 (86400 * 3 + 5) ∧
    calculate_fine 2 100 = 0 ∧
    calculate_fine 1 (86400 * 2 + 3600) =
      ((86400 * 2 + 3600 : Int).fdiv 86400 - 1) * daily_fine :=
  ⟨calculate_fine_spec.1 1 (86400 * 1) (86400 * 3 + 5) (by norm_num) (by norm_num),
   calculate_fine_spec.2.1 2 100 (by norm_num),
   calculate_fine_spec.2.2 1 (86400 * 2 + 3600) (by norm_num)⟩

/-- `get_by_id` resolves to the *last* matching entry: a book appended at
the end wins the lookup for its (nonzero) id. -/
theorem get_by_id_append_last (books : List Book) (nb : Book) (h : nb.id ≠ 0) :
    get_by_id (books ++ [nb]) nb.id = some nb := by
  induction books with
  | nil => simp [get_by_id, h]
  | cons x rest ih =>
    have ih' : get_by_id (rest.append [nb]) nb.id = some nb := ih
    simp only [List.cons_append, get_by_id, ih']

/-- Claim C10: `add_book` assigns the new id as `len(books) + 1` (not
max-id + 1) and appends the record; in every state where some existing
book already carries id `len(books) + 1` — reachable by deleting a
non-last book and adding — the add produces a *second* record with that
id, and the by-id lookup then resolves the id to just one of the two (the
newly added one).  The closing conjunct replays the concrete trace
add, add, add, delete id 1, add: the fourth book also receives id 3 and
the lookup returns it rather than the original id-3 record. -/
theorem add_book_duplicate_id_spec :
    (∀ (bd : BookInput) (books : List Book),
        (add_book bd books).1 = (books.length : Int) + 1) ∧
    (∀ (bd : BookInput) (books : List Book),
        (add_book bd books).2 = books ++
          [{ id := (books.length : Int) + 1
             sno_code := bd.sno_code.getD ("T" ++ toString ((books.length : Int) + 1))
             title := bd.title
             author := bd.author
             isbn := bd.isbn
             category := bd.category
             total_copies := bd.total_copies
             available_copies := bd.total_copies }]) ∧
    (∀ (bd : BookInput) (books : List Book) (b : Book),
        b ∈ books → b.id = (books.length : Int) + 1 →
        2 ≤ ((add_book bd books).2.filter
              (fun x => x.id = (books.length : Int) + 1)).length) ∧
    (∀ (bd : BookInput) (books : List Book),
        get_by_id (add_book bd books).2 ((books.length : Int) + 1) =
          some { id := (books.length : Int) + 1
                 sno_code := bd.sno_code.getD ("T" ++ toString ((books.length : Int) + 1))
                 title := bd.title
                 author := bd.author
                 isbn := bd.isbn
                 category := bd.category
                 total_copies := bd.total_copies
                 available_copies := bd.total_copies }) ∧
    (let bd1 : BookInput := ⟨none, "Alpha", "A", "111", "c", 3⟩
     let bd2 : BookInput := ⟨none, "Beta", "B", "222", "c", 3⟩
     let bd3 : BookInput := ⟨none, "Gamma", "C", "333", "c", 3⟩
     let bd4 : BookInput := ⟨none, "Delta", "D", "444", "c", 3⟩
     let books3 := (add_book bd3 (add_book bd2 (add_book bd1 []).2).2).2
     let books4 := (add_book bd4 (delete_book 1 books3).2).2
     (delete_book 1 books3).1 = true ∧
     (books4.filter (fun x => x.id = 3)).length = 2 ∧
     get_by_id books4 3 =
       some { id := 3, sno_code := "T3", title := "Delta", author := "D",
              isbn := "444", category := "c", total_copies := 3,
              available_copies := 3 }) := by
  refine ⟨fun _ _ => rfl, fun _ _ => rfl, ?_, ?_, by decide⟩
  · intro bd books b hb hid
    have hrw : (add_book bd books).2 = books ++
        [{ id := (books.length : Int) + 1
           sno_code := bd.sno_code.getD ("T" ++ toString ((books.length : Int) + 1))
           title := bd.title
           author := bd.author
           isbn := bd.isbn
           category := bd.category
           total_copies := bd.total_copies
           available_copies := bd.total_copies }] := rfl
    rw [hrw, List.filter_append, List.length_append]
    have h1 : b ∈ books.filter (fun x => x.id = (books.length : Int) + 1) :=
      List.mem_filter.mpr ⟨hb, by simp [hid]⟩
    have h2 : 1 ≤ (books.filter (fun x => x.id = (books.length : Int) + 1)).length :=
      List.length_pos.mpr (List.ne_nil_of_mem h1)
    have h3 : (([{ id := (books.length : Int) + 1,
                   sno_code := bd.sno_code.getD ("T" ++ toString ((books.length : Int) + 1)),
                   title := bd.title, author := bd.author, isbn := bd.isbn,
                   category := bd.category, total_copies := bd.total_copies,
                   available_copies := bd.total_copies }] : List Book).filter
            (fun x => x.id = (books.length : Int) + 1)).length = 1 := by
      simp
    omega
  · intro bd books
    have hz : ((books.length : Int) + 1) ≠ 0 := by
      have : (0 : Int) ≤ (books.length : Int) := Int.natCast_nonneg _
      omega
    exact get_by_id_append_last books _ hz

/-- Witness for claim C10's hypothesis-bearing conjunct: in a catalog of
two books whose second entry already carries id 3 = length + 1, an add
leaves two records with id 3. -/
theorem add_book_duplicate_id_spec_witness :
    2 ≤ ((add_book ⟨none, "Delta", "D", "444", "c", 3⟩
          [{ id := 2, sno_code := "T2", title := "Beta", author := "B", isbn := "222",
             category := "c", total_copies := 3, available_copies := 3 },
           { id := 3, sno_code := "T3", title := "Gamma", author := "C", isbn := "333",
             category := "c", total_copies := 3, available_copies := 1 }]).2.filter
          (fun x => x.id = (([{ id := 2, sno_code := "T2", title := "Beta", author := "B",
                                isbn := "222", category := "c", total_copies := 3,
                                available_copies := 3 },
                              { id := 3, sno_code := "T3", title := "Gamma", author := "C",
                                isbn := "333", category := "c", total_copies := 3,
                                available_copies := 1 }] : List Book).length : Int) + 1)).length :=
  add_book_duplicate_id_spec.2.2.1 ⟨none, "Delta", "D", "444", "c", 3⟩
    [{ id := 2, sno_code := "T2", title := "Beta", author := "B", isbn := "222",
       category := "c", total_copies := 3, available_copies := 3 },
     { id := 3, sno_code := "T3", title := "Gamma", author := "C", isbn := "333",
       category := "c", total_copies := 3, available_copies := 1 }]
    { id := 3, sno_code := "T3", title := "Gamma", author := "C", isbn := "333",
      category := "c", total_copies := 3, available_copies := 1 }
    (by decide) (by decide)

/-- When the lookup misses, the issue-path decrement is a no-op. -/
theorem dec_looked_up_of_none {books : List Book} {bid : Int}
    (h : get_by_id books bid = none) : dec_looked_up books bid = books := by
  induction books with
  | nil => rfl
  | cons b rest ih =>
    simp only [get_by_id] at h
    cases hr : get_by_id rest bid with
    | some r => rw [hr] at h; cases h
    | none =>
      rw [hr] at h
      by_cases hc : b.id = bid ∧ b.id ≠ 0
      · rw [if_pos hc] at h; cases h
      · simp only [dec_looked_up, hr, if_neg hc, ih hr]

/-- The issue-path decrement hits exactly the looked-up book: afterwards
the lookup sees its available count lowered by one. -/
theorem get_by_id_dec_looked_up {books : List Book} {bid : Int} {bk : Book}
    (h : get_by_id books bid = some bk) :
    get_by_id (dec_looked_up books bid) bid =
      some { bk with available_copies := bk.available_copies - 1 } := by
  induction books with
  | nil => cases h
  | cons b rest ih =>
    simp only [get_by_id] at h
    cases hr : get_by_id rest bid with
    | some r =>
      rw [hr] at h
      cases h
      simp only [dec_looked_up, hr, get_by_id, ih hr]
    | none =>
      rw [hr] at h
      by_cases hc : b.id = bid ∧ b.id ≠ 0
      · rw [if_pos hc] at h
        cases h
        obtain ⟨hc1, hc2⟩ := hc
        have hb0 : bid ≠ 0 := hc1 ▸ hc2
        simp [dec_looked_up, hr, get_by_id, hc1, hc2, hb0]
      · rw [if_neg hc] at h; cases h

/-- The issue-path decrement changes no id, title or total count. -/
theorem dec_looked_up_map (books : List Book) (bid : Int) :
    (dec_looked_up books bid).map (fun x => (x.id, x.title, x.total_copies)) =
      books.map (fun x => (x.id, x.title, x.total_copies)) := by
  induction books with
  | nil => rfl
  | cons b rest ih =>
    cases hr : get_by_id rest bid with
    | some r => simp only [dec_looked_up, hr, List.map_cons, ih]
    | none =>
      by_cases hc : b.id = bid ∧ b.id ≠ 0
      · simp only [dec_looked_up, hr, if_pos hc, List.map_cons]
      · simp only [dec_looked_up, hr, if_neg hc, List.map_cons, ih]

/-- When the lookup hits, the issue-path decrement lowers the total number
of available copies by exactly one. -/
theorem sumAvail_dec_looked_up {books : List Book} {bid : Int} {bk : Book}
    (h : get_by_id books bid = some bk) :
    sumAvail (dec_looked_up books bid) = sumAvail books - 1 := by
  induction books with
  | nil => cases h
  | cons b rest ih =>
    simp only [get_by_id] at h
    cases hr : get_by_id rest bid with
    | some r =>
      rw [hr] at h
      cases h
      simp only [dec_looked_up, hr, sumAvail, List.map_cons, List.sum_cons]
      have := ih hr
      simp only [sumAvail] at this
      rw [this]
      ring
    | none =>
      rw [hr] at h
      by_cases hc : b.id = bid ∧ b.id ≠ 0
      · simp only [dec_looked_up, hr, if_pos hc, sumAvail, List.map_cons, List.sum_cons]
        ring
      · rw [if_neg hc] at h; cases h

/-- `update_borrow_count` acts on the first id match. -/
theorem update_borrow_count_first_match (mid : String) (delta : Int)
    (pre post : List Member) (m : Member)
    (hpre : ∀ x ∈ pre, x.id ≠ mid) (hm : m.id = mid) :
    update_borrow_count mid delta (pre ++ m :: post) =
      (true, pre ++
        { m with
          current_borrowed :=
            if m.current_borrowed + delta < 0 then 0 else m.current_borrowed + delta
          total_borrowed := m.total_borrowed + |delta| } :: post) := by
  induction pre with
  | nil => simp [update_borrow_count, hm]
  | cons p pre ih =>
    have hp : p.id ≠ mid := hpre p (by simp)
    have ih' := ih (fun x hx => hpre x (by simp [hx]))
    simp [update_borrow_count, hp, ih']

/-- Claim C3: issuing against a book with no available copy fails with
"Book not available" and changes no state; issuing an available book to an
existing member succeeds, lowers exactly that book's available count by
one (ids, titles and totals untouched, catalog-wide available sum down by
exactly one), appends exactly one `issued` transaction whose due date is
the issue date plus the 14-day loan period, and raises the member's
current and lifetime borrowed counts by one.  The closing conjunct replays
the spec's scenario: from `(available = 5, total = 5)` five issues succeed
and the sixth fails. -/
theorem issue_book_spec :
    (∀ (bid : Int) (mid : String) (now : Int) (d : LibraryData) (b : Book),
        get_by_id d.books bid = some b → b.available_copies ≤ 0 →
        issue_book bid mid now d = ((false, "Book not available"), d)) ∧
    (∀ (bid : Int) (mid : String) (now : Int) (d : LibraryData) (b : Book),
        get_by_id d.books bid = some b → 0 < b.available_copies →
        (issue_book bid mid now d).1.1 = true ∧
        get_by_id (issue_book bid mid now d).2.books bid =
          some { b with available_copies := b.available_copies - 1 } ∧
        (issue_book bid mid now d).2.books.map (fun x => (x.id, x.title, x.total_copies)) =
          d.books.map (fun x => (x.id, x.title, x.total_copies)) ∧
        sumAvail (issue_book bid mid now d).2.books = sumAvail d.books - 1 ∧
        (issue_book bid mid now d).2.transactions =
          d.transactions ++
            [{ id := (d.transactions.length : Int) + 1, book_id := bid, member_id := mid,
               issue_date := now, due_date := now + loan_period, return_date := "",
               status := "issued", fine_amount := 0, fine_paid := false, renewals := 0 }] ∧
        (∀ (pre post : List Member) (m : Member),
            d.members = pre ++ m :: post → (∀ x ∈ pre, x.id ≠ mid) → m.id = mid →
            0 ≤ m.current_borrowed →
            (issue_book bid mid now d).2.members =
              pre ++ { m with current_borrowed := m.current_borrowed + 1,
                              total_borrowed := m.total_borrowed + 1 } :: post)) ∧
    loan_period = 14 ∧
    (let b0 : Book := ⟨1, "T1", "Five", "A", "555", "c", 5, 5⟩
     let m0 : Member := ⟨"M0001", "N", 5, true, 0, 0⟩
     let d0 : LibraryData := ⟨[b0], [m0], []⟩
     let d1 := (issue_book 1 "M0001" 0 d0).2
     let d2 := (issue_book 1 "M0001" 0 d1).2
     let d3 := (issue_book 1 "M0001" 0 d2).2
     let d4 := (issue_book 1 "M0001" 0 d3).2
     let d5 := (issue_book 1 "M0001" 0 d4).2
     (issue_book 1 "M0001" 0 d0).1.1 = true ∧
     (issue_book 1 "M0001" 0 d1).1.1 = true ∧
     (issue_book 1 "M0001" 0 d2).1.1 = true ∧
     (issue_book 1 "M0001" 0 d3).1.1 = true ∧
     (issue_book 1 "M0001" 0 d4).1.1 = true ∧
     (issue_book 1 "M0001" 0 d5).1 = (false, "Book not available") ∧
     d5.books.map Book.available_copies = [0]) := by
  refine ⟨?_, ?_, rfl, by decide⟩
  · intro bid mid now d b h hle
    simp only [issue_book, h]
    rw [if_pos hle]
  · intro bid mid now d b h h0
    have hiss : issue_book bid mid now d =
        ((true, "Book issued successfully. Due date: " ++ toString (now + loan_period)),
         { books := dec_looked_up d.books bid
           members := (update_borrow_count mid 1 d.members).2
           transactions := d.transactions ++
             [{ id := (d.transactions.length : Int) + 1, book_id := bid, member_id := mid,
                issue_date := now, due_date := now + loan_period, return_date := "",
                status := "issued", fine_amount := 0, fine_paid := false,
                renewals := 0 }] }) := by
      simp only [issue_book, h]
      rw [if_neg (not_le.mpr h0)]
    refine ⟨by rw [hiss], ?_, ?_, ?_, by rw [hiss], ?_⟩
    · rw [hiss]
      exact get_by_id_dec_looked_up h
    · rw [hiss]
      exact dec_looked_up_map d.books bid
    · rw [hiss]
      exact sumAvail_dec_looked_up h
    · intro pre post m hd hpre hm hnn
      rw [hiss]
      simp only
      rw [hd, update_borrow_count_first_match mid 1 pre post m hpre hm]
      have hno : ¬ (m.current_borrowed + 1 < 0) := by omega
      simp [hno]

/-- Witness for claim C3 at concrete states: a zero-availability issue
fails and leaves the state untouched; an issue of an available book to an
existing member succeeds and raises the member's counters. -/
theorem issue_book_spec_witness :
    issue_book 1 "M9" 0
        ⟨[⟨1, "T1", "Zero", "A", "000", "c", 3, 0⟩], [], []⟩ =
      ((false, "Book not available"),
       ⟨[⟨1, "T1", "Zero", "A", "000", "c", 3, 0⟩], [], []⟩) ∧
    (issue_book 1 "M9" 7
        ⟨[⟨1, "T1", "One", "A", "111", "c", 3, 2⟩],
         [⟨"M9", "N", 5, true, 0, 0⟩], []⟩).1.1 = true ∧
    (issue_book 1 "M9" 7
        ⟨[⟨1, "T1", "One", "A", "111", "c", 3, 2⟩],
         [⟨"M9", "N", 5, true, 0, 0⟩], []⟩).2.members =
      [] ++ ({ id := "M9", name := "N", max_books := 5, active := true,
               total_borrowed := 0 + 1, current_borrowed := 0 + 1 } : Member) :: [] :=
  ⟨issue_book_spec.1 1 "M9" 0
      ⟨[⟨1, "T1", "Zero", "A", "000", "c", 3, 0⟩], [], []⟩
      ⟨1, "T1", "Zero", "A", "000", "c", 3, 0⟩ (by decide) (by decide),
   (issue_book_spec.2.1 1 "M9" 7
      ⟨[⟨1, "T1", "One", "A", "111", "c", 3, 2⟩],
       [⟨"M9", "N", 5, true, 0, 0⟩], []⟩
      ⟨1, "T1", "One", "A", "111", "c", 3, 2⟩ (by decide) (by decide)).1,
   (issue_book_spec.2.1 1 "M9" 7
      ⟨[⟨1, "T1", "One", "A", "111", "c", 3, 2⟩],
       [⟨"M9", "N", 5, true, 0, 0⟩], []⟩
      ⟨1, "T1", "One", "A", "111", "c", 3, 2⟩ (by decide) (by decide)).2.2.2.2.2
     [] [] ⟨"M9", "N", 5, true, 0, 0⟩ rfl (by simp) rfl (by decide)⟩

/-- Restocking changes no quantity of copies to zero-effect: adding zero
copies is the identity on a record. -/
theorem bump_zero (b : Book) : bump 0 b = b := by
  simp [bump]

/-- Two successive restocks of one record add up. -/
theorem bump_bump (q s : Int) (b : Book) : bump s (bump q b) = bump (q + s) b := by
  simp [bump, add_assoc]

/-- A bulk-restock row's contribution to position `j` splits off the sum. -/
theorem rowSum_cons (r : RestockRow) (rest : List RestockRow)
    (l : List String) (j : Nat) :
    rowSum (r :: rest) l j =
      (if firstIdx r.isbn l = some j then r.quantity else 0) + rowSum rest l j := by
  by_cases h : firstIdx r.isbn l = some j
  · simp [rowSum, List.filter_cons, h]
  · simp [rowSum, List.filter_cons, h]

/-- The bulk-restock step never changes the isbn column. -/
theorem restock_by_isbn_map_isbn (isbn : String) (q : Int) (ts : String)
    (books : List Book) (history : List StockRecord) :
    (restock_by_isbn isbn q ts books history).2.1.map Book.isbn =
      books.map Book.isbn := by
  induction books with
  | nil => rfl
  | cons b rest ih =>
    by_cases hb : b.isbn = isbn
    · simp [restock_by_isbn, hb, bump]
    · simp [restock_by_isbn, hb, ih]

/-- The bulk-restock step finds a book exactly when the isbn occurs. -/
theorem restock_by_isbn_found (isbn : String) (q : Int) (ts : String)
    (books : List Book) (history : List StockRecord) :
    (restock_by_isbn isbn q ts books history).1.isSome =
      (firstIdx isbn (books.map Book.isbn)).isSome := by
  induction books with
  | nil => rfl
  | cons b rest ih =>
    by_cases hb : b.isbn = isbn
    · simp [restock_by_isbn, hb, firstIdx]
    · simp [restock_by_isbn, hb, firstIdx, ih]

/-- An unmatched isbn leaves catalog and history untouched. -/
theorem restock_by_isbn_of_none (isbn : String) (q : Int) (ts : String)
    (books : List Book) (history : List StockRecord)
    (h : firstIdx isbn (books.map Book.isbn) = none) :
    restock_by_isbn isbn q ts books history = (none, books, history) := by
  induction books with
  | nil => rfl
  | cons b rest ih =>
    by_cases hb : b.isbn = isbn
    · simp [firstIdx, hb] at h
    · simp only [List.map_cons, firstIdx, if_neg hb, Option.map_eq_none'] at h
      simp [restock_by_isbn, hb, ih h]

/-- Entrywise effect of one bulk-restock step: the first isbn match is
bumped by the row quantity, everything else is untouched. -/
theorem restock_by_isbn_get (isbn : String) (q : Int) (ts : String)
    (books : List Book) (history : List StockRecord) :
    ∀ j, (restock_by_isbn isbn q ts books history).2.1[j]? =
      if firstIdx isbn (books.map Book.isbn) = some j
      then books[j]?.map (bump q) else books[j]? := by
  induction books with
  | nil => intro j; simp [restock_by_isbn, firstIdx]
  | cons b rest ih =>
    intro j
    by_cases hb : b.isbn = isbn
    · cases j with
      | zero => simp [restock_by_isbn, hb, firstIdx]
      | succ k => simp [restock_by_isbn, hb, firstIdx]
    · cases j with
      | zero =>
        cases hf : firstIdx isbn (rest.map Book.isbn) with
        | none => simp [restock_by_isbn, hb, firstIdx, hf]
        | some i => simp [restock_by_isbn, hb, firstIdx, hf]
      | succ k =>
        have ihk := ih k
        cases hf : firstIdx isbn (rest.map Book.isbn) with
        | none =>
          rw [hf] at ihk
          rw [if_neg (by simp : ¬ (none : Option Nat) = some k)] at ihk
          simp [restock_by_isbn, hb, firstIdx, hf, ihk]
        | some i =>
          rw [hf] at ihk
          by_cases hik : i = k
          · subst hik
            rw [if_pos rfl] at ihk
            simp [restock_by_isbn, hb, firstIdx, hf, ihk]
          · rw [if_neg (by simpa using hik : ¬ (some i : Option Nat) = some k)] at ihk
            simp [restock_by_isbn, hb, firstIdx, hf, ihk, hik]

/-- Invariants of the whole bulk-restock row loop: the isbn column is
stable, unknown isbns land in `skipped` in row order, each matched row
grows `restocked` by one title, and the catalog entry at each position
ends up bumped by exactly the total quantity its position receives. -/
theorem bulk_restock_loop_spec (ts : String) :
    ∀ (rows : List RestockRow) (books : List Book) (history : List StockRecord)
      (racc sacc : List String),
      (bulk_restock_loop ts rows books history racc sacc).books.map Book.isbn =
        books.map Book.isbn ∧
      (bulk_restock_loop ts rows books history racc sacc).skipped =
        sacc ++ (rows.filter
          (fun r => firstIdx r.isbn (books.map Book.isbn) = none)).map RestockRow.isbn ∧
      (bulk_restock_loop ts rows books history racc sacc).restocked.length =
        racc.length + (rows.filter
          (fun r => (firstIdx r.isbn (books.map Book.isbn)).isSome)).length ∧
      ∀ j, (bulk_restock_loop ts rows books history racc sacc).books[j]? =
        books[j]?.map (bump (rowSum rows (books.map Book.isbn) j)) := by
  intro rows
  induction rows with
  | nil =>
    intro books history racc sacc
    refine ⟨rfl, by simp [bulk_restock_loop], by simp [bulk_restock_loop], ?_⟩
    intro j
    have h0 : rowSum [] (books.map Book.isbn) j = 0 := rfl
    rw [h0]
    cases hj : books[j]? with
    | none => simp [bulk_restock_loop, hj]
    | some b => simp [bulk_restock_loop, hj, bump_zero]
  | cons r rest ih =>
    intro books history racc sacc
    rcases hstep : restock_by_isbn r.isbn r.quantity ts books history with ⟨ores, books1, h1⟩
    have hmap : books1.map Book.isbn = books.map Book.isbn := by
      have hx := restock_by_isbn_map_isbn r.isbn r.quantity ts books history
      rw [hstep] at hx; exact hx
    have hget : ∀ j, books1[j]? =
        if firstIdx r.isbn (books.map Book.isbn) = some j
        then books[j]?.map (bump r.quantity) else books[j]? := by
      intro j
      have hx := restock_by_isbn_get r.isbn r.quantity ts books history j
      rw [hstep] at hx; exact hx
    have hfound : ores.isSome = (firstIdx r.isbn (books.map Book.isbn)).isSome := by
      have hx := restock_by_isbn_found r.isbn r.quantity ts books history
      rw [hstep] at hx; exact hx
    cases ores with
    | none =>
      have hf : firstIdx r.isbn (books.map Book.isbn) = none := by
        cases hfi : firstIdx r.isbn (books.map Book.isbn) with
        | none => rfl
        | some i => rw [hfi] at hfound; simp at hfound
      have hid := restock_by_isbn_of_none r.isbn r.quantity ts books history hf
      rw [hstep] at hid
      have hb1 : books1 = books := congrArg (fun t => t.2.1) hid
      have hh1 : h1 = history := congrArg (fun t => t.2.2) hid
      have hloop : bulk_restock_loop ts (r :: rest) books history racc sacc =
          bulk_restock_loop ts rest books history racc (sacc ++ [r.isbn]) := by
        simp only [bulk_restock_loop, hstep, hb1, hh1]
      rw [hloop]
      obtain ⟨ih1, ih2, ih3, ih4⟩ := ih books history racc (sacc ++ [r.isbn])
      refine ⟨ih1, ?_, ?_, ?_⟩
      · rw [ih2, List.filter_cons]
        simp [hf, List.append_assoc]
      · rw [ih3, List.filter_cons]
        simp [hf]
      · intro j
        rw [ih4 j, rowSum_cons, hf]
        simp
    | some b' =>
      have hfi : ∃ i, firstIdx r.isbn (books.map Book.isbn) = some i := by
        cases hfo : firstIdx r.isbn (books.map Book.isbn) with
        | none => rw [hfo] at hfound; simp at hfound
        | some i => exact ⟨i, rfl⟩
      obtain ⟨i, hf⟩ := hfi
      have hloop : bulk_restock_loop ts (r :: rest) books history racc sacc =
          bulk_restock_loop ts rest books1 h1 (racc ++ [b'.title]) sacc := by
        simp only [bulk_restock_loop, hstep]
      rw [hloop]
      obtain ⟨ih1, ih2, ih3, ih4⟩ := ih books1 h1 (racc ++ [b'.title]) sacc
      refine ⟨by rw [ih1, hmap], ?_, ?_, ?_⟩
      · rw [ih2, hmap, List.filter_cons]
        simp [hf]
      · rw [ih3, hmap, List.filter_cons]
        simp [hf]
        omega
      · intro j
        rw [ih4 j, hmap, hget j, rowSum_cons, hf]
        by_cases hij : i = j
        · subst hij
          rw [if_pos rfl, if_pos rfl]
          cases hj : books[i]? with
          | none => simp
          | some bb => simp [bump_bump]
        · rw [if_neg (by simpa using hij), if_neg (by simpa using hij)]
          rw [zero_add]

/-- Every bulk-restock row is either matched or skipped, never both. -/
theorem length_filter_found_add_skipped (rows : List RestockRow) (l : List String) :
    (rows.filter (fun r => (firstIdx r.isbn l).isSome)).length +
      (rows.filter (fun r => firstIdx r.isbn l = none)).length = rows.length := by
  induction rows with
  | nil => rfl
  | cons r rest ih =>
    cases h : firstIdx r.isbn l with
    | none =>
      rw [List.filter_cons, List.filter_cons]
      simp only [h, Option.isSome_none, Bool.false_eq_true, if_false, decide_True,
        if_true, List.length_cons]
      omega
    | some i =>
      rw [List.filter_cons, List.filter_cons]
      simp only [h, Option.isSome_some, if_true, List.length_cons]
      have hne : ¬ ((some i : Option Nat) = none) := by simp
      simp only [decide_eq_true_eq, hne, if_false]
      omega

/-- Claim C8: `bulk_restock` processes each row independently: the whole
batch always completes (result flag `true`), the rows whose isbn matches
no catalog book contribute exactly their isbns to `skipped` in row order,
every other row adds one entry to `restocked` (so restocked + skipped
exhaust the rows), and each catalog entry ends up with both counters
raised by exactly the quantity its position receives (zero for books no
row matches).  The closing conjunct runs the spec's scenario: 5 rows of
which 2 carry unknown isbns restock exactly 3 books and skip the other 2
rows, with no failure of the batch. -/
theorem bulk_restock_spec :
    (∀ (ts : String) (rows : List RestockRow) (books : List Book)
        (history : List StockRecord),
        (bulk_restock ts rows books history).1 = true ∧
        (bulk_restock ts rows books history).2.skipped =
          (rows.filter
            (fun r => firstIdx r.isbn (books.map Book.isbn) = none)).map RestockRow.isbn ∧
        (bulk_restock ts rows books history).2.restocked.length +
            (bulk_restock ts rows books history).2.skipped.length = rows.length ∧
        (bulk_restock ts rows books history).2.books.length = books.length ∧
        ∀ j, (bulk_restock ts rows books history).2.books[j]? =
          books[j]?.map (bump (rowSum rows (books.map Book.isbn) j))) ∧
    (let books : List Book :=
       [⟨1, "T1", "tA", "a", "A", "c", 5, 1⟩,
        ⟨2, "T2", "tB", "a", "B", "c", 5, 1⟩,
        ⟨3, "T3", "tC", "a", "C", "c", 5, 0⟩]
     let rows : List RestockRow := [⟨"A", 1⟩, ⟨"X", 1⟩, ⟨"B", 2⟩, ⟨"Y", 3⟩, ⟨"C", 4⟩]
     (bulk_restock "ts" rows books []).1 = true ∧
     (bulk_restock "ts" rows books []).2.skipped = ["X", "Y"] ∧
     (bulk_restock "ts" rows books []).2.restocked = ["tA", "tB", "tC"] ∧
     (bulk_restock "ts" rows books []).2.books.map Book.available_copies = [2, 3, 4] ∧
     (bulk_restock "ts" rows books []).2.books.map Book.total_copies = [6, 7, 9] ∧
     (bulk_restock "ts" rows books []).2.history.length = 3) := by
  refine ⟨?_, by decide⟩
  intro ts rows books history
  obtain ⟨h1, h2, h3, h4⟩ := bulk_restock_loop_spec ts rows books history [] []
  refine ⟨rfl, ?_, ?_, ?_, h4⟩
  · show (bulk_restock_loop ts rows books history [] []).skipped = _
    rw [h2, List.nil_append]
  · show (bulk_restock_loop ts rows books history [] []).restocked.length +
        (bulk_restock_loop ts rows books history [] []).skipped.length = rows.length
    rw [h2, h3, List.nil_append, List.length_nil, Nat.zero_add, List.length_map]
    exact length_filter_found_add_skipped rows (books.map Book.isbn)
  · show (bulk_restock_loop ts rows books history [] []).books.length = books.length
    have hx := congrArg List.length h1
    simpa [List.length_map] using hx

end LibraryCore
